import Mathlib

/-!
Shallow embedding of the MCP worker-process supervisor in
`src/services/mcp-manager.js` (class `MCPServerManager`).

The manager keeps three JS `Map`s keyed by server id — `servers` (metadata),
`processes` (child-process handles) and `connectionAttempts` (retry counters) —
plus the `setTimeout`-scheduled retries, which we model as a set of pending
timers.  JS `Map`s are modelled as association lists with the `Map.get` /
`Map.set` / `Map.delete` semantics (`alookup` / `ainsert` / `aerase`).

Each handler of the source (`startServer`, the `exit` and `error` callbacks,
`handleServerFailure`, `stopServer`, `shutdown`, `getServerStatus`, and the
`initialize` loop, here `initAllServers` since `initialize` is a Lean keyword)
becomes a pure state-transition function that also returns the list of
observable effects it performs: spawns, emitted events, signals sent,
scheduled retries and the shutdown grace-period sleep.  Asynchronous
interleavings are modelled by a command language `Cmd`: an external run of the
system is a list of commands (process exits, error events, timer firings, the
public API calls) folded over the state.
-/

namespace MCPMan

/-- `Map.get`: first binding of the key, if any. -/
def alookup {α : Type} (k : String) : List (String × α) → Option α
  | [] => none
  | e :: rest => if e.1 = k then some e.2 else alookup k rest

/-- `Map.set`: replace the binding of the key in place, else append. -/
def ainsert {α : Type} (k : String) (v : α) : List (String × α) → List (String × α)
  | [] => [(k, v)]
  | e :: rest => if e.1 = k then (k, v) :: rest else e :: ainsert k v rest

/-- `Map.delete`: remove the binding of the key. -/
def aerase {α : Type} (k : String) : List (String × α) → List (String × α)
  | [] => []
  | e :: rest => if e.1 = k then rest else e :: aerase k rest

/-- One entry of `CUSTOM_MCP_SERVERS`: the static configuration of a worker. -/
structure Config where
  name : String
  layer : Nat
  enabled : Bool
  tools : List String
  resources : List String
deriving DecidableEq

/-- The child-process handle stored in `this.processes`: its pid and the
Node `killed` flag (set once a signal has been delivered via `kill`). -/
structure ProcInfo where
  pid : Nat
  killed : Bool
deriving DecidableEq

/-- The metadata record stored in `this.servers` by `startServer`. -/
structure ServerMeta where
  pid : Nat
  startTime : Nat
  status : String
deriving DecidableEq

/-- `this.maxRetries` in the constructor. -/
def maxRetries : Nat := 3

/-- The manager state: the three maps of the class, the pending
`setTimeout` retries (id, delay in ms), a fresh-pid source and a clock. -/
structure SysState where
  servers : List (String × ServerMeta)
  processes : List (String × ProcInfo)
  connectionAttempts : List (String × Nat)
  pendingTimers : List (String × Nat)
  nextPid : Nat
  clock : Nat
deriving DecidableEq

/-- The state built by the constructor: all maps empty. -/
def initState : SysState :=
  { servers := [], processes := [], connectionAttempts := [],
    pendingTimers := [], nextPid := 1, clock := 0 }

/-- Observable effects: process spawns, the `emit`ted events of the class,
retry scheduling, signals sent and the shutdown grace-period sleep. -/
inductive Ev where
  | spawnProc (serverId : String) (pid : Nat)
  | emitStarted (serverId : String)
  | emitFailed (serverId : String)
  | emitError (serverId : String)
  | emitExited (serverId : String) (code : Option Int) (signal : Option String)
  | emitMaxRetries (serverId : String)
  | schedRetry (serverId : String) (delayMs : Nat)
  | kill (serverId : String) (sig : String)
  | sleep (ms : Nat)
deriving DecidableEq

/-- A registry of worker definitions, as `CUSTOM_MCP_SERVERS`. -/
abbrev Registry := List (String × Config)

/-- `5000 * (attempts + 1)` of `handleServerFailure`, as a function of the
1-based attempt number: the delay in milliseconds before retry `attempt`. -/
def retryDelayMs (attempt : Nat) : Nat := 5000 * attempt

/-- The retry counter of a worker: `this.connectionAttempts.get(serverId) || 0`. -/
def attemptsOf (st : SysState) (serverId : String) : Nat :=
  (alookup serverId st.connectionAttempts).getD 0

/-- `startServer(serverId, config)`: spawn the child process and store the
process handle and the metadata record.  A spawn failure is the `Except`
error path (the thrown exception); on it nothing is stored. -/
def startServer (serverId : String) (config : Config) (spawnFails : Bool)
    (st : SysState) : Except String (SysState × List Ev) :=
  if spawnFails then
    .error "spawn failed"
  else
    let pid := st.nextPid
    .ok ({ st with
            processes := ainsert serverId { pid := pid, killed := false } st.processes,
            servers := ainsert serverId
              { pid := pid, startTime := st.clock, status := "running" } st.servers,
            nextPid := pid + 1,
            clock := st.clock + 1 },
         [Ev.spawnProc serverId pid])

/-- `handleServerFailure(serverId, config)`: while the counter is below
`maxRetries`, bump it and schedule a relaunch after `5000 * (attempts + 1)`
ms; otherwise emit `serverMaxRetriesExceeded`.  The source never stores the
timer handle, so the scheduled retry is recorded as a pending timer that
nothing ever cancels. -/
def handleServerFailure (serverId : String) (st : SysState) : SysState × List Ev :=
  let attempts := attemptsOf st serverId
  if attempts < maxRetries then
    ({ st with
        connectionAttempts := ainsert serverId (attempts + 1) st.connectionAttempts,
        pendingTimers := ainsert serverId (5000 * (attempts + 1)) st.pendingTimers },
     [Ev.schedRetry serverId (5000 * (attempts + 1))])
  else
    (st, [Ev.emitMaxRetries serverId])

/-- The `process.on exit` callback of `startServer`: delete the process and
the metadata, emit `serverExited`, and invoke the failure handler exactly
when `code !== 0 && code !== null` (`code = none` models a null exit code,
i.e. termination by signal). -/
def onExit (serverId : String) (code : Option Int) (signal : Option String)
    (st : SysState) : SysState × List Ev :=
  let st1 := { st with
                processes := aerase serverId st.processes,
                servers := aerase serverId st.servers }
  let evs1 := [Ev.emitExited serverId code signal]
  match code with
  | some c =>
      if c ≠ 0 then
        let r := handleServerFailure serverId st1
        (r.1, evs1 ++ r.2)
      else (st1, evs1)
  | none => (st1, evs1)

/-- The `process.on error` callback of `startServer`: emit `serverError`
and invoke the failure handler (the maps are not touched here). -/
def onError (serverId : String) (st : SysState) : SysState × List Ev :=
  let r := handleServerFailure serverId st
  (r.1, Ev.emitError serverId :: r.2)

/-- The body of `initialize()` (renamed: `initialize` is a Lean keyword):
iterate the registry, skip disabled entries, and for each enabled entry
try `startServer`, emitting `serverStarted` on success; a failure is caught,
emitted as `serverFailed`, and the loop continues with the next entry.
`failing` lists the ids whose spawn throws during this call. -/
def initAllServers (failing : List String) (st : SysState) :
    Registry → SysState × List Ev
  | [] => (st, [])
  | (serverId, config) :: rest =>
      if config.enabled then
        match startServer serverId config (failing.contains serverId) st with
        | .ok r =>
            let r2 := initAllServers failing r.1 rest
            (r2.1, r.2 ++ [Ev.emitStarted serverId] ++ r2.2)
        | .error _ =>
            let r2 := initAllServers failing st rest
            (r2.1, Ev.emitFailed serverId :: r2.2)
      else
        initAllServers failing st rest

/-- The firing of a retry timer scheduled by `handleServerFailure`: the
`setTimeout` callback runs `startServer(serverId, config)` with the config
captured from the registry, and a failed retry spawn is only logged by the
attached `catch`. Nothing fires when no timer is pending. -/
def fireTimer (reg : Registry) (serverId : String) (spawnFails : Bool)
    (st : SysState) : SysState × List Ev :=
  if (alookup serverId st.pendingTimers).isSome then
    let st0 := { st with pendingTimers := aerase serverId st.pendingTimers }
    match alookup serverId reg with
    | some config =>
        match startServer serverId config spawnFails st0 with
        | .ok r => r
        | .error _ => (st0, [])
    | none => (st0, [])
  else (st, [])

/-- `stopServer(serverId)`: if a process handle is stored, send it
SIGTERM (which sets the Node `killed` flag); otherwise do nothing. -/
def stopServer (serverId : String) (st : SysState) : SysState × List Ev :=
  match alookup serverId st.processes with
  | some p =>
      ({ st with processes := ainsert serverId { p with killed := true } st.processes },
       [Ev.kill serverId "SIGTERM"])
  | none => (st, [])

/-- `shutdown()`: send SIGTERM to every stored process, await the fixed
2000 ms grace period, force-kill any stored process whose `killed` flag is
still unset, then clear both maps.  `connectionAttempts` and the pending
retry timers are not touched. -/
def shutdown (st : SysState) : SysState × List Ev :=
  let termEvs := st.processes.map (fun e : String × ProcInfo => Ev.kill e.1 "SIGTERM")
  let st1 := { st with
                processes := st.processes.map
                  (fun e : String × ProcInfo => (e.1, { e.2 with killed := true })) }
  let forceEvs := (st1.processes.filter (fun e : String × ProcInfo => !e.2.killed)).map
    (fun e : String × ProcInfo => Ev.kill e.1 "SIGKILL")
  ({ st1 with processes := [], servers := [] },
   termEvs ++ [Ev.sleep 2000] ++ forceEvs)

/-- One row of the array returned by `getServerStatus()`. -/
structure StatusEntry where
  id : String
  name : String
  layer : Nat
  enabled : Bool
  status : String
  pid : Option Nat
  startTime : Option Nat
  tools : Nat
  resources : Nat
deriving DecidableEq

/-- `getServerStatus()`: one row per configured server; a server with no
stored metadata is reported with status "stopped" and null pid and start
time. -/
def getServerStatus (reg : Registry) (st : SysState) : List StatusEntry :=
  reg.map (fun e =>
    match alookup e.1 st.servers with
    | some sd =>
        { id := e.1, name := e.2.name, layer := e.2.layer, enabled := e.2.enabled,
          status := sd.status, pid := some sd.pid, startTime := some sd.startTime,
          tools := e.2.tools.length, resources := e.2.resources.length }
    | none =>
        { id := e.1, name := e.2.name, layer := e.2.layer, enabled := e.2.enabled,
          status := "stopped", pid := none, startTime := none,
          tools := e.2.tools.length, resources := e.2.resources.length })

/-- `getServer(serverId)`. -/
def getServer (serverId : String) (st : SysState) : Option ServerMeta :=
  alookup serverId st.servers

/-- External stimuli driving the manager: the public API calls, process
exit and error callbacks, and retry-timer firings.  The spawn outcomes are
the command's data. -/
inductive Cmd where
  | cInit (failing : List String)
  | cExit (serverId : String) (code : Option Int) (signal : Option String)
  | cErr (serverId : String)
  | cTimer (serverId : String) (spawnFails : Bool)
  | cStop (serverId : String)
  | cShutdown
deriving DecidableEq

/-- Apply one stimulus.  Exit and error callbacks fire only for a worker
whose process is live (each spawned process delivers them once). -/
def applyCmd (reg : Registry) (st : SysState) : Cmd → SysState × List Ev
  | .cInit failing => initAllServers failing st reg
  | .cExit serverId code sig =>
      if (alookup serverId st.processes).isSome then onExit serverId code sig st
      else (st, [])
  | .cErr serverId =>
      if (alookup serverId st.processes).isSome then onError serverId st
      else (st, [])
  | .cTimer serverId spawnFails => fireTimer reg serverId spawnFails st
  | .cStop serverId => stopServer serverId st
  | .cShutdown => shutdown st

/-- Run a list of stimuli from a given state, accumulating the effects. -/
def runFrom (reg : Registry) (st : SysState) : List Cmd → SysState × List Ev
  | [] => (st, [])
  | c :: cs =>
      let r := applyCmd reg st c
      let r2 := runFrom reg r.1 cs
      (r2.1, r.2 ++ r2.2)

/-- Run a list of stimuli from the constructor state. -/
def run (reg : Registry) (cs : List Cmd) : SysState × List Ev :=
  runFrom reg initState cs

/-- Number of retries scheduled for one worker id in an effect trace. -/
def countSched (serverId : String) : List Ev → Nat
  | [] => 0
  | Ev.schedRetry j _ :: rest =>
      (if j = serverId then 1 else 0) + countSched serverId rest
  | _ :: rest => countSched serverId rest

/-- Number of processes spawned for one worker id in an effect trace. -/
def countSpawn (serverId : String) : List Ev → Nat
  | [] => 0
  | Ev.spawnProc j _ :: rest =>
      (if j = serverId then 1 else 0) + countSpawn serverId rest
  | _ :: rest => countSpawn serverId rest

/-- The concrete `CUSTOM_MCP_SERVERS` registry (all four servers enabled,
the default when none of the ENABLE_*_MCP variables is the string false). -/
def customMcpServers : Registry :=
  [ ("bambisleep-hypnosis-mcp",
      { name := "BambiSleep Hypnosis Audio Management", layer := 2, enabled := true,
        tools := ["add_audio_file", "search_audio", "create_playlist",
                  "get_playlist", "list_triggers"],
        resources := ["bambisleep://audio/library", "bambisleep://playlists/\x7bid\x7d"] }),
    ("aigf-personality-mcp",
      { name := "AI Girlfriend Personality Management", layer := 2, enabled := true,
        tools := ["create_personality", "switch_personality", "update_mood",
                  "add_context", "get_trigger_response", "list_profiles"],
        resources := ["aigf://profile/active", "aigf://profiles/\x7bid\x7d"] }),
    ("trigger-system-mcp",
      { name := "Hypnotic Trigger Management", layer := 2, enabled := true,
        tools := ["register_trigger", "activate_trigger", "search_triggers",
                  "get_trigger", "get_activation_history", "get_compliance_stats"],
        resources := ["triggers://registry", "triggers://logs", "triggers://compliance"] }),
    ("chat-analytics-mcp",
      { name := "Chat Analytics and Metrics", layer := 2, enabled := true,
        tools := ["start_session", "end_session", "record_message",
                  "record_trigger_activation", "record_conversion",
                  "get_analytics", "get_user_engagement"],
        resources := ["analytics://sessions/active", "analytics://sessions/completed",
                      "analytics://users/engagement", "analytics://conversions",
                      "analytics://summary"] }) ]

/-! ### Association-list lemmas (JS `Map` semantics) -/

theorem alookup_ainsert {α : Type} (j k : String) (v : α) (l : List (String × α)) :
    alookup j (ainsert k v l) = if k = j then some v else alookup j l := by
  induction l with
  | nil =>
      by_cases h : k = j <;> simp [ainsert, alookup, h]
  | cons e rest ih =>
      by_cases h2 : k = j
      · subst h2
        by_cases h1 : e.1 = k
        · simp [ainsert, alookup, h1]
        · simp [ainsert, alookup, h1, ih]
      · by_cases h1 : e.1 = k
        · have h3 : ¬ e.1 = j := fun hej => h2 (h1.symm.trans hej)
          simp [ainsert, alookup, h1, h2, h3]
        · have h4 : ¬ j = k := fun hjk => h2 hjk.symm
          by_cases h3 : e.1 = j <;> simp [ainsert, alookup, h1, h2, h3, h4, ih]

theorem alookup_aerase_ne {α : Type} (j k : String) (l : List (String × α))
    (h : k ≠ j) : alookup j (aerase k l) = alookup j l := by
  induction l with
  | nil => simp [aerase, alookup]
  | cons e rest ih =>
      by_cases h1 : e.1 = k
      · have h3 : ¬ e.1 = j := fun hej => h (h1.symm.trans hej)
        simp [aerase, alookup, h1, h3, h]
      · by_cases h3 : e.1 = j
        · have h4 : ¬ j = k := fun hjk => h hjk.symm
          simp [aerase, alookup, h1, h3, h4, ih]
        · simp [aerase, alookup, h1, h3, ih]

theorem aerase_sublist {α : Type} (k : String) (l : List (String × α)) :
    (aerase k l).Sublist l := by
  induction l with
  | nil => simp [aerase]
  | cons e rest ih =>
      by_cases h1 : e.1 = k
      · simpa [aerase, h1] using List.sublist_cons_self e rest
      · simpa [aerase, h1] using List.Sublist.cons₂ e ih

theorem alookup_eq_none {α : Type} (k : String) (l : List (String × α))
    (h : k ∉ l.map Prod.fst) : alookup k l = none := by
  induction l with
  | nil => simp [alookup]
  | cons e rest ih =>
      simp only [List.map_cons, List.mem_cons] at h
      push_neg at h
      have h1 : e.1 ≠ k := fun hc => h.1 hc.symm
      simp [alookup, h1, ih h.2]

theorem alookup_aerase_self {α : Type} (k : String) (l : List (String × α))
    (h : (l.map Prod.fst).Nodup) : alookup k (aerase k l) = none := by
  induction l with
  | nil => simp [aerase, alookup]
  | cons e rest ih =>
      simp only [List.map_cons, List.nodup_cons] at h
      by_cases h1 : e.1 = k
      · have : k ∉ rest.map Prod.fst := h1 ▸ h.1
        simp [aerase, h1, alookup_eq_none k rest this]
      · simp [aerase, alookup, h1, ih h.2]

theorem mem_keys_ainsert {α : Type} (j k : String) (v : α) (l : List (String × α)) :
    j ∈ (ainsert k v l).map Prod.fst ↔ j = k ∨ j ∈ l.map Prod.fst := by
  induction l with
  | nil => simp [ainsert]
  | cons e rest ih =>
      by_cases h1 : e.1 = k
      · simp only [ainsert, if_pos h1, List.map_cons, List.mem_cons]
        constructor
        · rintro (h | h)
          · exact Or.inl h
          · exact Or.inr (Or.inr h)
        · rintro (h | h | h)
          · exact Or.inl h
          · exact Or.inl (h.trans h1)
          · exact Or.inr h
      · simp only [ainsert, if_neg h1, List.map_cons, List.mem_cons, ih]
        tauto

theorem keys_nodup_ainsert {α : Type} (k : String) (v : α) (l : List (String × α))
    (h : (l.map Prod.fst).Nodup) : ((ainsert k v l).map Prod.fst).Nodup := by
  induction l with
  | nil => simp [ainsert]
  | cons e rest ih =>
      simp only [List.map_cons, List.nodup_cons] at h
      by_cases h1 : e.1 = k
      · simp only [ainsert, if_pos h1, List.map_cons, List.nodup_cons]
        exact ⟨h1 ▸ h.1, h.2⟩
      · simp only [ainsert, if_neg h1, List.map_cons, List.nodup_cons]
        refine ⟨?_, ih h.2⟩
        intro hc
        rcases (mem_keys_ainsert e.1 k v rest).mp hc with h2 | h2
        · exact h1 h2
        · exact h.1 h2

theorem keys_nodup_aerase {α : Type} (k : String) (l : List (String × α))
    (h : (l.map Prod.fst).Nodup) : ((aerase k l).map Prod.fst).Nodup :=
  List.Nodup.sublist (List.Sublist.map Prod.fst (aerase_sublist k l)) h

theorem keys_nodup_unique {α : Type} {k : String} {a b : α} {l : List (String × α)}
    (h : (l.map Prod.fst).Nodup) (ha : (k, a) ∈ l) (hb : (k, b) ∈ l) : a = b := by
  induction l with
  | nil => simp at ha
  | cons e rest ih =>
      simp only [List.map_cons, List.nodup_cons] at h
      rcases List.mem_cons.mp ha with ha1 | ha1 <;> rcases List.mem_cons.mp hb with hb1 | hb1
      · rw [← ha1] at hb1; exact congrArg Prod.snd hb1.symm
      · exfalso
        have hk : k ∈ rest.map Prod.fst := List.mem_map_of_mem Prod.fst hb1
        rw [← ha1] at h
        exact h.1 hk
      · exfalso
        have hk : k ∈ rest.map Prod.fst := List.mem_map_of_mem Prod.fst ha1
        rw [← hb1] at h
        exact h.1 hk
      · exact ih h.2 ha1 hb1

/-! ### Effect-counting helpers -/

theorem countSched_append (id : String) (a b : List Ev) :
    countSched id (a ++ b) = countSched id a + countSched id b := by
  induction a with
  | nil => simp [countSched]
  | cons e rest ih => cases e <;> simp [countSched, ih, Nat.add_assoc]

theorem countSpawn_append (id : String) (a b : List Ev) :
    countSpawn id (a ++ b) = countSpawn id a + countSpawn id b := by
  induction a with
  | nil => simp [countSpawn]
  | cons e rest ih => cases e <;> simp [countSpawn, ih, Nat.add_assoc]

theorem countSched_kills (id : String) (l : List (String × ProcInfo)) (s : String) :
    countSched id (l.map (fun e : String × ProcInfo => Ev.kill e.1 s)) = 0 := by
  induction l with
  | nil => rfl
  | cons e rest ih => simpa [countSched] using ih

/-! ### `handleServerFailure`: what it touches and the retry accounting -/

theorem handleServerFailure_servers (j : String) (st : SysState) :
    (handleServerFailure j st).1.servers = st.servers := by
  simp only [handleServerFailure]
  split <;> rfl

theorem handleServerFailure_processes (j : String) (st : SysState) :
    (handleServerFailure j st).1.processes = st.processes := by
  simp only [handleServerFailure]
  split <;> rfl

theorem handleServerFailure_pos (j : String) (st : SysState)
    (h : attemptsOf st j < maxRetries) :
    handleServerFailure j st =
      ({ st with
          connectionAttempts := ainsert j (attemptsOf st j + 1) st.connectionAttempts,
          pendingTimers := ainsert j (5000 * (attemptsOf st j + 1)) st.pendingTimers },
       [Ev.schedRetry j (5000 * (attemptsOf st j + 1))]) := by
  simp only [handleServerFailure]
  rw [if_pos h]

theorem handleServerFailure_neg (j : String) (st : SysState)
    (h : ¬ attemptsOf st j < maxRetries) :
    handleServerFailure j st = (st, [Ev.emitMaxRetries j]) := by
  simp only [handleServerFailure]
  rw [if_neg h]

theorem handleServerFailure_attempts_eq (j id : String) (st : SysState) :
    attemptsOf (handleServerFailure j st).1 id
      = attemptsOf st id + countSched id (handleServerFailure j st).2 := by
  by_cases hlt : attemptsOf st j < maxRetries
  · rw [handleServerFailure_pos j st hlt]
    by_cases hj : j = id
    · subst hj
      simp [attemptsOf, alookup_ainsert, countSched]
    · simp [attemptsOf, alookup_ainsert, hj, countSched]
  · rw [handleServerFailure_neg j st hlt]
    simp [countSched]

theorem handleServerFailure_attempts_le (j id : String) (st : SysState)
    (h : attemptsOf st id ≤ maxRetries) :
    attemptsOf (handleServerFailure j st).1 id ≤ maxRetries := by
  by_cases hlt : attemptsOf st j < maxRetries
  · rw [handleServerFailure_pos j st hlt]
    by_cases hj : j = id
    · subst hj
      have hlt2 : (alookup j st.connectionAttempts).getD 0 < 3 := by
        simpa [attemptsOf, maxRetries] using hlt
      simp [attemptsOf, alookup_ainsert, maxRetries]
      omega
    · simpa [attemptsOf, alookup_ainsert, hj] using h
  · rw [handleServerFailure_neg j st hlt]
    exact h

/-! ### The other operations leave the retry counters alone -/

theorem initAllServers_connectionAttempts (failing : List String) :
    ∀ (reg : Registry) (st : SysState),
      (initAllServers failing st reg).1.connectionAttempts = st.connectionAttempts := by
  intro reg
  induction reg with
  | nil => intro st; rfl
  | cons e rest ih =>
      intro st
      rcases e with ⟨serverId, config⟩
      by_cases hen : config.enabled
      · by_cases hf : serverId ∈ failing <;>
          simp [initAllServers, hen, startServer, hf, ih]
      · simp [initAllServers, hen, ih]

theorem initAllServers_pendingTimers (failing : List String) :
    ∀ (reg : Registry) (st : SysState),
      (initAllServers failing st reg).1.pendingTimers = st.pendingTimers := by
  intro reg
  induction reg with
  | nil => intro st; rfl
  | cons e rest ih =>
      intro st
      rcases e with ⟨serverId, config⟩
      by_cases hen : config.enabled
      · by_cases hf : serverId ∈ failing <;>
          simp [initAllServers, hen, startServer, hf, ih]
      · simp [initAllServers, hen, ih]

theorem initAllServers_sched (failing : List String) (id : String) :
    ∀ (reg : Registry) (st : SysState),
      countSched id (initAllServers failing st reg).2 = 0 := by
  intro reg
  induction reg with
  | nil => intro st; rfl
  | cons e rest ih =>
      intro st
      rcases e with ⟨serverId, config⟩
      by_cases hen : config.enabled
      · by_cases hf : serverId ∈ failing
        · simp only [initAllServers, if_pos hen, startServer]
          rw [if_pos (by simpa using hf)]
          exact ih st
        · simp only [initAllServers, if_pos hen, startServer]
          rw [if_neg (by simpa using hf)]
          simpa [countSched_append, countSched] using ih _
      · simp [initAllServers, hen, ih]

theorem fireTimer_connectionAttempts (reg : Registry) (j : String) (b : Bool)
    (st : SysState) :
    (fireTimer reg j b st).1.connectionAttempts = st.connectionAttempts := by
  simp only [fireTimer]
  split
  · cases halo : alookup j reg with
    | none => rfl
    | some config => cases b <;> simp [startServer, halo]
  · rfl

theorem fireTimer_sched (reg : Registry) (j id : String) (b : Bool) (st : SysState) :
    countSched id (fireTimer reg j b st).2 = 0 := by
  simp only [fireTimer]
  split
  · cases halo : alookup j reg with
    | none => rfl
    | some config =>
        cases b <;> simp [startServer, halo, countSched]
  · rfl

theorem stopServer_connectionAttempts (j : String) (st : SysState) :
    (stopServer j st).1.connectionAttempts = st.connectionAttempts := by
  simp only [stopServer]
  cases alookup j st.processes <;> rfl

theorem stopServer_sched (j id : String) (st : SysState) :
    countSched id (stopServer j st).2 = 0 := by
  simp only [stopServer]
  cases alookup j st.processes <;> rfl

theorem shutdown_connectionAttempts (st : SysState) :
    (shutdown st).1.connectionAttempts = st.connectionAttempts := rfl

theorem shutdown_pendingTimers (st : SysState) :
    (shutdown st).1.pendingTimers = st.pendingTimers := rfl

theorem shutdown_sched (id : String) (st : SysState) :
    countSched id (shutdown st).2 = 0 := by
  simp only [shutdown, countSched_append]
  rw [show countSched id [Ev.sleep 2000] = 0 from rfl]
  rw [countSched_kills, countSched_kills]

/-! ### Retry accounting through one stimulus and through a whole run -/

theorem onExit_noRetry (j : String) (code : Option Int) (sig : Option String)
    (st : SysState) (h : code = none ∨ code = some 0) :
    onExit j code sig st
      = ({ st with processes := aerase j st.processes,
                   servers := aerase j st.servers },
         [Ev.emitExited j code sig]) := by
  rcases h with h | h <;> subst h <;> simp [onExit]

theorem onExit_crash (j : String) (c : Int) (sig : Option String) (st : SysState)
    (hc : c ≠ 0) :
    onExit j (some c) sig st
      = ((handleServerFailure j { st with processes := aerase j st.processes,
                                          servers := aerase j st.servers }).1,
         Ev.emitExited j (some c) sig ::
           (handleServerFailure j { st with processes := aerase j st.processes,
                                            servers := aerase j st.servers }).2) := by
  simp only [onExit]
  rw [if_pos hc]
  rfl

theorem onExit_attempts_eq (j id : String) (code : Option Int) (sig : Option String)
    (st : SysState) :
    attemptsOf (onExit j code sig st).1 id
      = attemptsOf st id + countSched id (onExit j code sig st).2 := by
  cases code with
  | none =>
      rw [onExit_noRetry j none sig st (Or.inl rfl)]
      rfl
  | some c =>
      by_cases hc : c = 0
      · subst hc
        rw [onExit_noRetry j (some 0) sig st (Or.inr rfl)]
        rfl
      · rw [onExit_crash j c sig st hc]
        exact handleServerFailure_attempts_eq j id
          { st with processes := aerase j st.processes, servers := aerase j st.servers }

theorem onExit_attempts_le (j id : String) (code : Option Int) (sig : Option String)
    (st : SysState) (h : attemptsOf st id ≤ maxRetries) :
    attemptsOf (onExit j code sig st).1 id ≤ maxRetries := by
  cases code with
  | none =>
      rw [onExit_noRetry j none sig st (Or.inl rfl)]
      exact h
  | some c =>
      by_cases hc : c = 0
      · subst hc
        rw [onExit_noRetry j (some 0) sig st (Or.inr rfl)]
        exact h
      · rw [onExit_crash j c sig st hc]
        exact handleServerFailure_attempts_le j id
          { st with processes := aerase j st.processes, servers := aerase j st.servers } h

theorem onError_attempts_eq (j id : String) (st : SysState) :
    attemptsOf (onError j st).1 id
      = attemptsOf st id + countSched id (onError j st).2 := by
  have h1 := handleServerFailure_attempts_eq j id st
  simpa [onError, countSched] using h1

theorem onError_attempts_le (j id : String) (st : SysState)
    (h : attemptsOf st id ≤ maxRetries) :
    attemptsOf (onError j st).1 id ≤ maxRetries := by
  simpa [onError] using handleServerFailure_attempts_le j id st h

theorem applyCmd_attempts_eq (reg : Registry) (st : SysState) (c : Cmd) (id : String) :
    attemptsOf (applyCmd reg st c).1 id
      = attemptsOf st id + countSched id (applyCmd reg st c).2 := by
  cases c with
  | cInit failing =>
      simp [applyCmd, attemptsOf, initAllServers_connectionAttempts,
        initAllServers_sched failing id reg st]
  | cExit j code sig =>
      by_cases hg : (alookup j st.processes).isSome
      · simpa [applyCmd, hg] using onExit_attempts_eq j id code sig st
      · simp [applyCmd, hg, countSched]
  | cErr j =>
      by_cases hg : (alookup j st.processes).isSome
      · simpa [applyCmd, hg] using onError_attempts_eq j id st
      · simp [applyCmd, hg, countSched]
  | cTimer j b =>
      simp [applyCmd, attemptsOf, fireTimer_connectionAttempts, fireTimer_sched]
  | cStop j =>
      simp [applyCmd, attemptsOf, stopServer_connectionAttempts, stopServer_sched]
  | cShutdown =>
      simp [applyCmd, attemptsOf, shutdown_connectionAttempts, shutdown_sched]

theorem applyCmd_attempts_le (reg : Registry) (st : SysState) (c : Cmd) (id : String)
    (h : attemptsOf st id ≤ maxRetries) :
    attemptsOf (applyCmd reg st c).1 id ≤ maxRetries := by
  cases c with
  | cInit failing =>
      simpa [applyCmd, attemptsOf, initAllServers_connectionAttempts] using h
  | cExit j code sig =>
      by_cases hg : (alookup j st.processes).isSome
      · simpa [applyCmd, hg] using onExit_attempts_le j id code sig st h
      · simpa [applyCmd, hg] using h
  | cErr j =>
      by_cases hg : (alookup j st.processes).isSome
      · simpa [applyCmd, hg] using onError_attempts_le j id st h
      · simpa [applyCmd, hg] using h
  | cTimer j b =>
      simpa [applyCmd, attemptsOf, fireTimer_connectionAttempts] using h
  | cStop j =>
      simpa [applyCmd, attemptsOf, stopServer_connectionAttempts] using h
  | cShutdown =>
      simpa [applyCmd, attemptsOf, shutdown_connectionAttempts] using h

theorem runFrom_attempts_eq (reg : Registry) (id : String) :
    ∀ (cs : List Cmd) (st : SysState),
      attemptsOf (runFrom reg st cs).1 id
        = attemptsOf st id + countSched id (runFrom reg st cs).2 := by
  intro cs
  induction cs with
  | nil => intro st; simp [runFrom, countSched]
  | cons c cs ih =>
      intro st
      have h1 := applyCmd_attempts_eq reg st c id
      have h2 := ih (applyCmd reg st c).1
      simp only [runFrom, countSched_append]
      omega

theorem runFrom_attempts_le (reg : Registry) (id : String) :
    ∀ (cs : List Cmd) (st : SysState), attemptsOf st id ≤ maxRetries →
      attemptsOf (runFrom reg st cs).1 id ≤ maxRetries := by
  intro cs
  induction cs with
  | nil => intro st h; simpa [runFrom] using h
  | cons c cs ih =>
      intro st h
      simpa [runFrom] using ih (applyCmd reg st c).1 (applyCmd_attempts_le reg st c id h)

theorem run_sched_le (reg : Registry) (cs : List Cmd) (id : String) :
    countSched id (run reg cs).2 ≤ maxRetries := by
  have h1 := runFrom_attempts_eq reg id cs initState
  have h2 := runFrom_attempts_le reg id cs initState
    (by simp [attemptsOf, initState, alookup])
  have h0 : attemptsOf initState id = 0 := by simp [attemptsOf, initState, alookup]
  rw [h0] at h1
  simp only [run]
  omega

/-! ### The live maps stay key-aligned: a process handle is stored iff a
metadata record is -/

def liveMapsAligned (st : SysState) : Prop :=
  (st.processes.map Prod.fst).Nodup ∧ (st.servers.map Prod.fst).Nodup ∧
  ∀ id, (alookup id st.processes).isSome = (alookup id st.servers).isSome

theorem liveMapsAligned_initState : liveMapsAligned initState :=
  ⟨by simp [initState], by simp [initState], fun _ => rfl⟩

theorem startServer_aligned (serverId : String) (config : Config) (b : Bool)
    (st : SysState) (r : SysState × List Ev)
    (hok : startServer serverId config b st = .ok r)
    (h : liveMapsAligned st) : liveMapsAligned r.1 := by
  cases b with
  | true => simp [startServer] at hok
  | false =>
      simp only [startServer, Bool.false_eq_true, if_false, Except.ok.injEq] at hok
      subst hok
      obtain ⟨h1, h2, h3⟩ := h
      refine ⟨keys_nodup_ainsert _ _ _ h1, keys_nodup_ainsert _ _ _ h2, ?_⟩
      intro id
      by_cases hid : serverId = id <;> simp [alookup_ainsert, hid, h3 id]

theorem handleServerFailure_aligned (j : String) (st : SysState)
    (h : liveMapsAligned st) : liveMapsAligned (handleServerFailure j st).1 := by
  unfold liveMapsAligned at h ⊢
  rw [handleServerFailure_servers, handleServerFailure_processes]
  exact h

theorem aligned_erase (j : String) (st : SysState) (h : liveMapsAligned st) :
    liveMapsAligned { st with processes := aerase j st.processes,
                              servers := aerase j st.servers } := by
  obtain ⟨h1, h2, h3⟩ := h
  refine ⟨keys_nodup_aerase _ _ h1, keys_nodup_aerase _ _ h2, ?_⟩
  intro id
  by_cases hid : j = id
  · subst hid
    rw [alookup_aerase_self _ _ h1, alookup_aerase_self _ _ h2]
    rfl
  · rw [alookup_aerase_ne id j _ hid, alookup_aerase_ne id j _ hid]
    exact h3 id

theorem onExit_aligned (j : String) (code : Option Int) (sig : Option String)
    (st : SysState) (h : liveMapsAligned st) :
    liveMapsAligned (onExit j code sig st).1 := by
  have key := aligned_erase j st h
  cases code with
  | none => rw [onExit_noRetry j none sig st (Or.inl rfl)]; exact key
  | some c =>
      by_cases hc : c = 0
      · subst hc
        rw [onExit_noRetry j (some 0) sig st (Or.inr rfl)]
        exact key
      · rw [onExit_crash j c sig st hc]
        exact handleServerFailure_aligned j _ key

theorem onError_aligned (j : String) (st : SysState) (h : liveMapsAligned st) :
    liveMapsAligned (onError j st).1 :=
  handleServerFailure_aligned j st h

theorem fireTimer_aligned (reg : Registry) (j : String) (b : Bool) (st : SysState)
    (h : liveMapsAligned st) : liveMapsAligned (fireTimer reg j b st).1 := by
  simp only [fireTimer]
  split
  · have h0 : liveMapsAligned { st with pendingTimers := aerase j st.pendingTimers } :=
      ⟨h.1, h.2.1, h.2.2⟩
    cases halo : alookup j reg with
    | none => exact h0
    | some config =>
        cases b with
        | true => exact h0
        | false =>
            exact startServer_aligned j config false _ _ rfl h0
  · exact h

theorem stopServer_aligned (j : String) (st : SysState) (h : liveMapsAligned st) :
    liveMapsAligned (stopServer j st).1 := by
  simp only [stopServer]
  cases hp : alookup j st.processes with
  | none => exact h
  | some p =>
      obtain ⟨h1, h2, h3⟩ := h
      refine ⟨keys_nodup_ainsert _ _ _ h1, h2, ?_⟩
      intro id
      by_cases hid : j = id
      · subst hid
        have hs := h3 j
        rw [hp] at hs
        simp [alookup_ainsert, ← hs]
      · simp [alookup_ainsert, hid, h3 id]

theorem shutdown_aligned (st : SysState) : liveMapsAligned (shutdown st).1 :=
  ⟨by simp [shutdown], by simp [shutdown], fun _ => rfl⟩

theorem initAllServers_aligned (failing : List String) :
    ∀ (reg : Registry) (st : SysState), liveMapsAligned st →
      liveMapsAligned (initAllServers failing st reg).1 := by
  intro reg
  induction reg with
  | nil => intro st h; exact h
  | cons e rest ih =>
      intro st h
      rcases e with ⟨serverId, config⟩
      by_cases hen : config.enabled
      · by_cases hf : serverId ∈ failing
        · simp only [initAllServers, if_pos hen, startServer]
          rw [if_pos (by simpa using hf)]
          exact ih st h
        · simp only [initAllServers, if_pos hen, startServer]
          rw [if_neg (by simpa using hf)]
          exact ih _ (startServer_aligned serverId config false st _ rfl h)
      · simp only [initAllServers, if_neg hen]
        exact ih st h

theorem applyCmd_aligned (reg : Registry) (st : SysState) (c : Cmd)
    (h : liveMapsAligned st) : liveMapsAligned (applyCmd reg st c).1 := by
  cases c with
  | cInit failing => exact initAllServers_aligned failing reg st h
  | cExit j code sig =>
      by_cases hg : (alookup j st.processes).isSome
      · simpa [applyCmd, hg] using onExit_aligned j code sig st h
      · simpa [applyCmd, hg] using h
  | cErr j =>
      by_cases hg : (alookup j st.processes).isSome
      · simpa [applyCmd, hg] using onError_aligned j st h
      · simpa [applyCmd, hg] using h
  | cTimer j b => exact fireTimer_aligned reg j b st h
  | cStop j => exact stopServer_aligned j st h
  | cShutdown => exact shutdown_aligned st

theorem runFrom_aligned (reg : Registry) :
    ∀ (cs : List Cmd) (st : SysState), liveMapsAligned st →
      liveMapsAligned (runFrom reg st cs).1 := by
  intro cs
  induction cs with
  | nil => intro st h; exact h
  | cons c cs ih =>
      intro st h
      simpa [runFrom] using ih (applyCmd reg st c).1 (applyCmd_aligned reg st c h)

theorem run_aligned (reg : Registry) (cs : List Cmd) :
    liveMapsAligned (run reg cs).1 :=
  runFrom_aligned reg cs initState liveMapsAligned_initState

/-! ### `initAllServers` on disabled or absent ids -/

theorem initAllServers_skip (failing : List String) (id : String) :
    ∀ (reg : Registry) (st : SysState),
      (∀ config, (id, config) ∈ reg → config.enabled = false) →
      alookup id (initAllServers failing st reg).1.servers = alookup id st.servers
      ∧ countSpawn id (initAllServers failing st reg).2 = 0 := by
  intro reg
  induction reg with
  | nil => intro st _; exact ⟨rfl, rfl⟩
  | cons e rest ih =>
      intro st h
      rcases e with ⟨serverId, config⟩
      have hrest : ∀ config, (id, config) ∈ rest → config.enabled = false :=
        fun cfg hm => h cfg (List.mem_cons_of_mem _ hm)
      by_cases hen : config.enabled
      · have hne : serverId ≠ id := by
          intro hcq
          have hmem : (id, config) ∈ (serverId, config) :: rest := by
            rw [← hcq]; exact List.mem_cons_self _ _
          have hdis := h config hmem
          simp [hdis] at hen
        by_cases hf : serverId ∈ failing
        · simp only [initAllServers, if_pos hen, startServer]
          rw [if_pos (by simpa using hf)]
          obtain ⟨ha, hb⟩ := ih st hrest
          exact ⟨ha, by simpa [countSpawn] using hb⟩
        · simp only [initAllServers, if_pos hen, startServer]
          rw [if_neg (by simpa using hf)]
          obtain ⟨ha, hb⟩ := ih _ hrest
          constructor
          · rw [ha, alookup_ainsert]
            simp [hne]
          · simp [countSpawn_append, countSpawn, hne, hb]
      · simp only [initAllServers, if_neg hen]
        exact ih st hrest

theorem getServerStatus_stopped (reg : Registry) (st : SysState) (id : String)
    (config : Config) (hm : (id, config) ∈ reg)
    (hnone : alookup id st.servers = none) :
    ({ id := id, name := config.name, layer := config.layer,
       enabled := config.enabled, status := "stopped", pid := none,
       startTime := none, tools := config.tools.length,
       resources := config.resources.length } : StatusEntry)
      ∈ getServerStatus reg st := by
  unfold getServerStatus
  refine List.mem_map.mpr ⟨(id, config), hm, ?_⟩
  simp [hnone]

/-- Every exit callback deletes the worker's entries from both live maps,
whatever the exit code or signal was. -/
theorem onExit_maps (j : String) (code : Option Int) (sig : Option String)
    (st : SysState) :
    (onExit j code sig st).1.servers = aerase j st.servers
    ∧ (onExit j code sig st).1.processes = aerase j st.processes := by
  cases code with
  | none =>
      rw [onExit_noRetry j none sig st (Or.inl rfl)]
      exact ⟨rfl, rfl⟩
  | some c =>
      by_cases hc : c = 0
      · subst hc
        rw [onExit_noRetry j (some 0) sig st (Or.inr rfl)]
        exact ⟨rfl, rfl⟩
      · rw [onExit_crash j c sig st hc]
        exact ⟨handleServerFailure_servers _ _, handleServerFailure_processes _ _⟩

/-! ### Concrete scenarios -/

/-- A one-worker configuration used in the concrete scenarios. -/
def cfgW : Config :=
  { name := "worker w", layer := 2, enabled := true, tools := ["t"], resources := ["r"] }

/-- A registry with the single enabled worker `w`. -/
def reg1 : Registry := [("w", cfgW)]

/-- A disabled worker definition. -/
def cfgD : Config :=
  { name := "worker d", layer := 2, enabled := false, tools := ["t1", "t2"],
    resources := [] }

/-- A registry with the single disabled worker `d`. -/
def regD : Registry := [("d", cfgD)]

/-- Two workers; in the scenario the first one's spawn fails. -/
def reg2 : Registry :=
  [("bad", { name := "bad worker", layer := 2, enabled := true, tools := [],
             resources := [] }),
   ("w", cfgW)]

/-- A state with one worker running (pid 5) and no retries recorded. -/
def stRunning : SysState :=
  { servers := [("w", { pid := 5, startTime := 0, status := "running" })],
    processes := [("w", { pid := 5, killed := false })],
    connectionAttempts := [], pendingTimers := [], nextPid := 6, clock := 1 }

/-- The always-crashing worker: initial launch plus the three scheduled
retries, every spawned process exiting with code 1. -/
def c1crashTrace : List Cmd :=
  [Cmd.cInit [], Cmd.cExit "w" (some 1) none, Cmd.cTimer "w" false,
   Cmd.cExit "w" (some 1) none, Cmd.cTimer "w" false, Cmd.cExit "w" (some 1) none,
   Cmd.cTimer "w" false, Cmd.cExit "w" (some 1) none]

/-- Crash, then `shutdown()` during the retry delay, then the un-canceled
timer fires. -/
def c8trace : List Cmd :=
  [Cmd.cInit [], Cmd.cExit "w" (some 1) none, Cmd.cShutdown, Cmd.cTimer "w" false]

/-! ### The claims -/

/-- C1 counterexample: for the always-crashing worker the code does make
exactly `maxRetries = 3` restart attempts and does emit the terminal
`serverMaxRetriesExceeded` event, but the handle never transitions to a
`Failed` state — it was deleted from the live map by the exit callback, and
`getServerStatus` reports the worker as "stopped" with a null pid. -/
theorem c1_no_failed_state_cex :
    countSched "w" (run reg1 c1crashTrace).2 = 3
    ∧ Ev.emitMaxRetries "w" ∈ (run reg1 c1crashTrace).2
    ∧ alookup "w" (run reg1 c1crashTrace).1.servers = none
    ∧ getServerStatus reg1 (run reg1 c1crashTrace).1
        = [{ id := "w", name := "worker w", layer := 2, enabled := true,
             status := "stopped", pid := none, startTime := none,
             tools := 1, resources := 1 }] := by
  refine ⟨by decide, by decide, by decide, by decide⟩

/-- C1 (amended): in every run at most `maxRetries = 3` retries are ever
scheduled for a worker id; once the attempt counter has reached
`maxRetries`, `handleServerFailure` schedules nothing further and only
emits `serverMaxRetriesExceeded`; a relaunch of the worker happens only
when a scheduled retry timer is pending; and a worker id with no stored
metadata is reported by `getServerStatus` as "stopped" with a null pid
(there is no `Failed` state in the implementation). -/
theorem c1_retry_bound_amended (reg : Registry) (cs : List Cmd) (id : String) :
    countSched id (run reg cs).2 ≤ maxRetries
    ∧ (∀ st : SysState, maxRetries ≤ attemptsOf st id →
        handleServerFailure id st = (st, [Ev.emitMaxRetries id]))
    ∧ (∀ (st : SysState) (b : Bool), alookup id st.pendingTimers = none →
        fireTimer reg id b st = (st, []))
    ∧ (∀ (st : SysState) (config : Config), (id, config) ∈ reg →
        alookup id st.servers = none →
        ({ id := id, name := config.name, layer := config.layer,
           enabled := config.enabled, status := "stopped", pid := none,
           startTime := none, tools := config.tools.length,
           resources := config.resources.length } : StatusEntry)
          ∈ getServerStatus reg st) := by
  refine ⟨run_sched_le reg cs id, ?_, ?_, ?_⟩
  · intro st hge
    exact handleServerFailure_neg id st (by omega)
  · intro st b hnone
    simp [fireTimer, hnone]
  · intro st config hm hnone
    exact getServerStatus_stopped reg st id config hm hnone

/-- C1 amended witness: the always-crashing scenario instantiates every
part of the amended claim at its exhausted final state. -/
theorem c1_retry_bound_amended_witness :
    countSched "w" (run reg1 c1crashTrace).2 ≤ maxRetries
    ∧ handleServerFailure "w" (run reg1 c1crashTrace).1
        = ((run reg1 c1crashTrace).1, [Ev.emitMaxRetries "w"])
    ∧ fireTimer reg1 "w" false (run reg1 c1crashTrace).1
        = ((run reg1 c1crashTrace).1, [])
    ∧ ({ id := "w", name := cfgW.name, layer := cfgW.layer,
         enabled := cfgW.enabled, status := "stopped", pid := none,
         startTime := none, tools := cfgW.tools.length,
         resources := cfgW.resources.length } : StatusEntry)
        ∈ getServerStatus reg1 (run reg1 c1crashTrace).1 :=
  ⟨(c1_retry_bound_amended reg1 c1crashTrace "w").1,
   (c1_retry_bound_amended reg1 c1crashTrace "w").2.1 _ (by decide),
   (c1_retry_bound_amended reg1 c1crashTrace "w").2.2.1 _ false (by decide),
   (c1_retry_bound_amended reg1 c1crashTrace "w").2.2.2 _ cfgW (by decide) (by decide)⟩

/-- C2: while attempts remain, `handleServerFailure` schedules the next
relaunch of attempt `k = attempts + 1` after exactly
`retryDelayMs k = 5000 * k` milliseconds (5 s, 10 s, 15 s for the three
attempts), and the delay is monotone in the attempt number. -/
theorem c2_backoff_delay (st : SysState) (id : String)
    (h : attemptsOf st id < maxRetries) :
    (handleServerFailure id st).2
        = [Ev.schedRetry id (retryDelayMs (attemptsOf st id + 1))]
    ∧ alookup id (handleServerFailure id st).1.pendingTimers
        = some (retryDelayMs (attemptsOf st id + 1))
    ∧ (∀ k : Nat, retryDelayMs k ≤ retryDelayMs (k + 1))
    ∧ retryDelayMs 1 = 5000 ∧ retryDelayMs 2 = 10000 ∧ retryDelayMs 3 = 15000 := by
  rw [handleServerFailure_pos id st h]
  refine ⟨rfl, ?_, ?_, rfl, rfl, rfl⟩
  · rw [alookup_ainsert]
    simp [retryDelayMs]
  · intro k
    simp only [retryDelayMs]
    omega

/-- C2 witness: the first failure of a fresh worker schedules its retry
after `retryDelayMs 1 = 5000` ms, and the delays are monotone. -/
theorem c2_backoff_delay_witness :
    (handleServerFailure "w" initState).2 = [Ev.schedRetry "w" (retryDelayMs 1)]
    ∧ alookup "w" (handleServerFailure "w" initState).1.pendingTimers
        = some (retryDelayMs 1)
    ∧ retryDelayMs 1 ≤ retryDelayMs 2 := by
  have h := c2_backoff_delay initState "w" (by decide)
  exact ⟨h.1, h.2.1, h.2.2.1 1⟩

/-- C3 counterexample: a running worker killed by a signal (exit code
null) has retries remaining, yet the exit callback schedules no relaunch
at all — `code !== 0 && code !== null` is false for a null code, so the
retry logic is skipped and the handle is simply deleted. -/
theorem c3_signal_exit_no_retry_cex :
    attemptsOf stRunning "w" < maxRetries
    ∧ countSched "w" (onExit "w" none (some "SIGKILL") stRunning).2 = 0
    ∧ (onExit "w" none (some "SIGKILL") stRunning).1.pendingTimers = []
    ∧ (onExit "w" none (some "SIGKILL") stRunning).1.connectionAttempts = []
    ∧ alookup "w" (onExit "w" none (some "SIGKILL") stRunning).1.servers = none := by
  refine ⟨by decide, by decide, by decide, by decide, by decide⟩

/-- C3 (amended): when a worker's process is terminated by a signal (exit
reported with a null exit code), the exit callback removes the worker from
both live maps and emits `serverExited`, but never consults the retry
logic: no relaunch is scheduled, whatever the retry budget. Retries happen
only for non-null, non-zero exit codes. -/
theorem c3_signal_exit_amended (st : SysState) (id : String) (sig : Option String) :
    onExit id none sig st
      = ({ st with processes := aerase id st.processes,
                   servers := aerase id st.servers },
         [Ev.emitExited id none sig]) :=
  onExit_noRetry id none sig st (Or.inl rfl)

/-- C4: a worker whose process exits with code 0 is removed from the live
maps (so `getServerStatus` reports it "stopped"), no retry is scheduled,
the pending timers and retry counters are untouched, and the failure
handler is not invoked. -/
theorem c4_clean_exit_not_retried (st : SysState) (id : String) (sig : Option String)
    (h : (st.servers.map Prod.fst).Nodup) :
    onExit id (some 0) sig st
      = ({ st with processes := aerase id st.processes,
                   servers := aerase id st.servers },
         [Ev.emitExited id (some 0) sig])
    ∧ alookup id (onExit id (some 0) sig st).1.servers = none
    ∧ countSched id (onExit id (some 0) sig st).2 = 0
    ∧ (onExit id (some 0) sig st).1.pendingTimers = st.pendingTimers
    ∧ (onExit id (some 0) sig st).1.connectionAttempts = st.connectionAttempts := by
  have he := onExit_noRetry id (some 0) sig st (Or.inr rfl)
  refine ⟨he, ?_, ?_, ?_, ?_⟩
  · rw [he]
    exact alookup_aerase_self id st.servers h
  · rw [he]
    rfl
  · rw [he]
  · rw [he]

/-- C4 witness: the clean exit of the running worker `w`. -/
theorem c4_clean_exit_not_retried_witness :
    onExit "w" (some 0) none stRunning
      = ({ stRunning with processes := aerase "w" stRunning.processes,
                          servers := aerase "w" stRunning.servers },
         [Ev.emitExited "w" (some 0) none])
    ∧ alookup "w" (onExit "w" (some 0) none stRunning).1.servers = none
    ∧ countSched "w" (onExit "w" (some 0) none stRunning).2 = 0
    ∧ (onExit "w" (some 0) none stRunning).1.pendingTimers = stRunning.pendingTimers
    ∧ (onExit "w" (some 0) none stRunning).1.connectionAttempts
        = stRunning.connectionAttempts :=
  c4_clean_exit_not_retried stRunning "w" none (by decide)

/-- C5: a definition with `enabled = false` is never spawned by the
initialization loop, and `getServerStatus` still lists it, reporting
status "stopped" with a null pid. -/
theorem c5_disabled_never_launched (reg : Registry) (failing : List String)
    (id : String) (config : Config)
    (hnodup : (reg.map Prod.fst).Nodup)
    (hm : (id, config) ∈ reg) (hdis : config.enabled = false) :
    countSpawn id (initAllServers failing initState reg).2 = 0
    ∧ ({ id := id, name := config.name, layer := config.layer,
         enabled := config.enabled, status := "stopped", pid := none,
         startTime := none, tools := config.tools.length,
         resources := config.resources.length } : StatusEntry)
        ∈ getServerStatus reg (initAllServers failing initState reg).1 := by
  have hall : ∀ cfg, (id, cfg) ∈ reg → cfg.enabled = false := by
    intro cfg hmem
    have heq := keys_nodup_unique hnodup hm hmem
    rw [← heq]
    exact hdis
  obtain ⟨ha, hb⟩ := initAllServers_skip failing id reg initState hall
  refine ⟨hb, ?_⟩
  apply getServerStatus_stopped reg _ id config hm
  rw [ha]
  rfl

/-- C5 witness: the disabled worker `d`. -/
theorem c5_disabled_never_launched_witness :
    countSpawn "d" (initAllServers [] initState regD).2 = 0
    ∧ ({ id := "d", name := cfgD.name, layer := cfgD.layer,
         enabled := cfgD.enabled, status := "stopped", pid := none,
         startTime := none, tools := cfgD.tools.length,
         resources := cfgD.resources.length } : StatusEntry)
        ∈ getServerStatus regD (initAllServers [] initState regD).1 :=
  c5_disabled_never_launched regD [] "d" cfgD (by decide) (by decide) (by decide)

/-- C6 counterexample: when the single enabled worker's spawn fails,
the initialization loop returns normally with the failure surfaced as a
`serverFailed` event — but the final state is exactly the constructor
state: no map holds any record of the failure, so nothing is "recorded
per handle". -/
theorem c6_failure_not_recorded_cex :
    initAllServers ["w"] initState reg1 = (initState, [Ev.emitFailed "w"]) := by
  decide

/-- C6 (amended): the initialization loop is total (it cannot propagate a
worker's launch failure) and attempts every enabled definition even when
an earlier one fails: each enabled worker id ends up with a
`serverStarted` or a `serverFailed` event. A failure is surfaced only
through the emitted event (and the log); it is not recorded in any
per-handle state. -/
theorem c6_init_isolated_failures (failing : List String) :
    ∀ (reg : Registry) (st : SysState) (id : String) (config : Config),
      (id, config) ∈ reg → config.enabled = true →
      Ev.emitStarted id ∈ (initAllServers failing st reg).2
      ∨ Ev.emitFailed id ∈ (initAllServers failing st reg).2 := by
  intro reg
  induction reg with
  | nil =>
      intro st id config hm
      simp at hm
  | cons e rest ih =>
      intro st id config hm hen
      rcases e with ⟨serverId, cfg0⟩
      rcases List.mem_cons.mp hm with hhead | htail
      · have hid : id = serverId := congrArg Prod.fst hhead
        subst hid
        have hcfg : config = cfg0 := congrArg Prod.snd hhead
        subst hcfg
        cases hS : startServer id config (failing.contains id) st with
        | ok r =>
            simp only [initAllServers, if_pos hen, hS]
            refine Or.inl ?_
            simp
        | error err =>
            simp only [initAllServers, if_pos hen, hS]
            exact Or.inr (List.mem_cons_self _ _)
      · by_cases hen0 : cfg0.enabled
        · cases hS : startServer serverId cfg0 (failing.contains serverId) st with
          | ok r =>
              simp only [initAllServers, if_pos hen0, hS]
              rcases ih r.1 id config htail hen with h | h
              · refine Or.inl ?_
                simp [h]
              · refine Or.inr ?_
                simp [h]
          | error err =>
              simp only [initAllServers, if_pos hen0, hS]
              rcases ih st id config htail hen with h | h
              · exact Or.inl (List.mem_cons_of_mem _ h)
              · exact Or.inr (List.mem_cons_of_mem _ h)
        · simp only [initAllServers, if_neg hen0]
          exact ih st id config htail hen

/-- C6 amended witness: the healthy worker `w` is still started by the
loop even though the earlier worker `bad` fails to spawn. -/
theorem c6_init_isolated_failures_witness :
    Ev.emitStarted "w" ∈ (initAllServers ["bad"] initState reg2).2
    ∨ Ev.emitFailed "w" ∈ (initAllServers ["bad"] initState reg2).2 :=
  c6_init_isolated_failures ["bad"] reg2 initState "w" cfgW (by decide) (by decide)

/-- C7 counterexample: a second `shutdown()` call right after a first one
sends no signal, but it is not a no-op returning immediately: it still
performs the full 2000 ms graceful-shutdown wait before returning. -/
theorem c7_second_shutdown_not_immediate_cex :
    (shutdown (shutdown stRunning).1).2 = [Ev.sleep 2000]
    ∧ (shutdown (shutdown stRunning).1).2 ≠ [] := by
  refine ⟨by decide, by decide⟩

/-- C7 (amended): `shutdown()` is idempotent on the state and sends no
duplicate signals — a second call leaves the state unchanged and emits no
kill at all — but it is not immediate: its only effect is the fixed
2000 ms grace-period wait. -/
theorem c7_shutdown_idempotent_amended (st : SysState) :
    shutdown (shutdown st).1 = ((shutdown st).1, [Ev.sleep 2000]) := by
  simp [shutdown]

/-- C8: the code evaluated at the failing scenario. A worker crashes with
exit code 1 and a retry is scheduled; `shutdown()` runs during the delay
and completes without canceling the timer (the timer handle is never
stored); the timer then fires and `startServer` respawns the worker — the
spawn happens after the shutdown's grace sleep and leaves live entries in
both maps, resurrecting the worker after shutdown. -/
theorem c8_pending_retry_resurrects_after_shutdown :
    (run reg1 [Cmd.cInit [], Cmd.cExit "w" (some 1) none, Cmd.cShutdown]).1.pendingTimers
        = [("w", 5000)]
    ∧ (run reg1 c8trace).2
        = [Ev.spawnProc "w" 1, Ev.emitStarted "w", Ev.emitExited "w" (some 1) none,
           Ev.schedRetry "w" 5000, Ev.sleep 2000, Ev.spawnProc "w" 2]
    ∧ alookup "w" (run reg1 c8trace).1.processes = some { pid := 2, killed := false }
    ∧ alookup "w" (run reg1 c8trace).1.servers
        = some { pid := 2, startTime := 1, status := "running" } := by
  refine ⟨by decide, by decide, by decide, by decide⟩

/-- C9 counterexample: a running worker crashes with exit code 1; the
exit callback schedules a retry and yet deletes the worker's handle from
both live maps — a crashed worker awaiting its retry does not keep its
handle, contradicting the claim that removal happens only at shutdown or
after a clean code-0 exit. -/
theorem c9_crash_removes_handle_cex :
    Ev.schedRetry "w" 5000 ∈ (onExit "w" (some 1) none stRunning).2
    ∧ (onExit "w" (some 1) none stRunning).1.pendingTimers = [("w", 5000)]
    ∧ alookup "w" (onExit "w" (some 1) none stRunning).1.servers = none
    ∧ alookup "w" (onExit "w" (some 1) none stRunning).1.processes = none := by
  refine ⟨by decide, by decide, by decide, by decide⟩

/-- C9 (amended): a worker's handle is removed from both live maps on
every exit of its process — whatever the exit code or signal, including a
crash awaiting retry — and `shutdown()` clears both maps entirely; the
handle is re-created only when a later relaunch stores a new one. -/
theorem c9_handle_removal_amended (st : SysState) (id : String) (code : Option Int)
    (sig : Option String) (hn : (st.servers.map Prod.fst).Nodup)
    (hp : (st.processes.map Prod.fst).Nodup) :
    alookup id (onExit id code sig st).1.servers = none
    ∧ alookup id (onExit id code sig st).1.processes = none
    ∧ (shutdown st).1.servers = [] ∧ (shutdown st).1.processes = [] := by
  obtain ⟨hs, hpm⟩ := onExit_maps id code sig st
  refine ⟨?_, ?_, rfl, rfl⟩
  · rw [hs]
    exact alookup_aerase_self id st.servers hn
  · rw [hpm]
    exact alookup_aerase_self id st.processes hp

/-- C9 amended witness: the crash of the running worker `w`. -/
theorem c9_handle_removal_amended_witness :
    alookup "w" (onExit "w" (some 1) none stRunning).1.servers = none
    ∧ alookup "w" (onExit "w" (some 1) none stRunning).1.processes = none
    ∧ (shutdown stRunning).1.servers = [] ∧ (shutdown stRunning).1.processes = [] :=
  c9_handle_removal_amended stRunning "w" (some 1) none (by decide) (by decide)

/-- C10: after any sequence of completed operations (initialization,
exit and error callbacks, timer firings, stop requests and shutdowns)
from the constructor state, the processes map and the servers map bind
exactly the same worker ids: an id has a stored process handle iff it has
a stored metadata record. -/
theorem c10_processes_servers_key_aligned (reg : Registry) (cs : List Cmd)
    (id : String) :
    (alookup id (run reg cs).1.processes).isSome
      = (alookup id (run reg cs).1.servers).isSome :=
  (run_aligned reg cs).2.2 id

end MCPMan
